import Mathlib

/-!
Verification of the Athanor EPUB converter's image-sanitization and
container (ZIP) engine, shallowly embedded from `Athanor-Wails/app.go`.

Bytes are modelled as `Nat` values below 256 inside `List Nat`; Go's
`uint32` arithmetic is modelled with `Nat` and explicit `% 2 ^ 32` /
`% 256` truncation at the points where Go truncates.  Go's in-place
slice mutation is modelled with `List.set`, which is a no-op out of
bounds, exactly like the bounds-guarded Go code paths exercised here.
-/

namespace Athanor

/-! ### Constants (app.go, `const` block) -/

def MaxImageDimension : Int := 50000
def MaxPixelCount : Int := 500000000
def MaxDecompressedSize : Nat := 500 * 1024 * 1024
def StreamBufferSize : Nat := 64 * 1024
def TargetDPI : Nat := 96
def JPEGQuality : Nat := 95
def MaxImageLongSide : Nat := 2500

/-! ### Generic byte-list helpers -/

/-- Read a big-endian 32-bit value, as Go's `binary.BigEndian.Uint32`
on `data[off : off+4]`; missing bytes read as 0 (the Go code only
reads in bounds, guarded by explicit length checks). -/
def readBE32 (l : List Nat) (off : Nat) : Nat :=
  l.getD off 0 * 16777216 + l.getD (off + 1) 0 * 65536 +
    l.getD (off + 2) 0 * 256 + l.getD (off + 3) 0

/-- The four big-endian bytes of `v % 2 ^ 32` (Go `binary.BigEndian.PutUint32`). -/
def be32Bytes (v : Nat) : List Nat :=
  [v / 16777216 % 256, v / 65536 % 256, v / 256 % 256, v % 256]

/-- Write a 32-bit big-endian value in place (Go `binary.BigEndian.PutUint32`
on a 4-byte subslice). -/
def bePutU32 (l : List Nat) (off v : Nat) : List Nat :=
  ((((l.set off (v / 16777216 % 256)).set (off + 1) (v / 65536 % 256)).set
      (off + 2) (v / 256 % 256)).set (off + 3) (v % 256))

/-- Write a 16-bit big-endian value in place (Go `binary.BigEndian.PutUint16`). -/
def bePutU16 (l : List Nat) (off v : Nat) : List Nat :=
  (l.set off (v / 256 % 256)).set (off + 1) (v % 256)

/-- Read a big-endian 16-bit value (Go `binary.BigEndian.Uint16`). -/
def readBE16 (l : List Nat) (off : Nat) : Nat :=
  l.getD off 0 * 256 + l.getD (off + 1) 0

/-- Go slice expression `l[off : off+len]` (reading only). -/
def slice (l : List Nat) (off len : Nat) : List Nat :=
  (l.drop off).take len

/-! ### CRC-32 (app.go `init` and `crc32PNG`) -/

/-- One bit-step of the table generator: `if c&1 != 0 then 0xEDB88320 ^ (c>>1) else c>>1`. -/
def crcStep (c : Nat) : Nat :=
  if c % 2 = 1 then Nat.xor 3988292384 (c / 2) else c / 2

/-- `crc32PNGTable[i]`: eight bit-steps starting from `i` (app.go `init`). -/
def crc32PNGTable (i : Nat) : Nat :=
  crcStep^[8] i

/-- One byte of the table-driven CRC loop:
`crc = crc32PNGTable[byte(crc)^b] ^ (crc >> 8)`. -/
def crc32Update (crc b : Nat) : Nat :=
  Nat.xor (crc32PNGTable (Nat.xor (crc % 256) b)) (crc / 256)

/-- `crc32PNG(data)`: table-driven CRC-32 with init and xor-out `0xFFFFFFFF`. -/
def crc32PNG (data : List Nat) : Nat :=
  Nat.xor (data.foldl crc32Update 4294967295) 4294967295

/-! ### JPEG JFIF APP0 patcher (app.go `injectJFIFDPI`) -/

/-- The scan loop of `injectJFIFDPI`: the first `i` with `2 ≤ i < len-16`
such that `data[i] = 0xFF`, `data[i+1] = 0xE0`, `i+9 ≤ len` and
`data[i+4 : i+9] = "JFIF\0"`. -/
def jfifScan (data : List Nat) : Option Nat :=
  (List.range' 2 (data.length - 18)).find? fun i =>
    data.getD i 0 = 255 && data.getD (i + 1) 0 = 224 &&
      i + 9 ≤ data.length && slice data (i + 4) 5 = [74, 70, 73, 70, 0]

/-- The fresh 18-byte APP0 segment built when no JFIF segment exists. -/
def jfifSeg (dpi : Nat) : List Nat :=
  [255, 224, 0, 16, 74, 70, 73, 70, 0, 1, 1, 1,
    dpi / 256 % 256, dpi % 256, dpi / 256 % 256, dpi % 256, 0, 0]

/-- `injectJFIFDPI(data, dpi)`: patch density fields of an existing JFIF
APP0 segment in place, or insert an 18-byte APP0 right after the SOI
marker; inputs shorter than 20 bytes are returned unchanged. -/
def injectJFIFDPI (data : List Nat) (dpi : Nat) : List Nat :=
  if data.length < 20 then data
  else
    match jfifScan data with
    | some i =>
        bePutU16 (bePutU16 (data.set (i + 11) 1) (i + 12) (dpi % 65536))
          (i + 14) (dpi % 65536)
    | none => data.take 2 ++ jfifSeg dpi ++ data.drop 2

/-! ### PNG pHYs patcher (app.go `injectPNGpHYs`) -/

/-- `ppm := uint32(float64(dpi) / 0.0254)` modelled by the exact rational
floor `dpi * 10000 / 254`.  Go's float64 division truncated to `uint32`
agrees with the exact floor at every `dpi` whose exact quotient is not
within one float ulp of an integer; in particular it does at the
program's only call site, `TargetDPI = 96`, where the quotient is
3779.527… and both give 3779. -/
def ppmOfDpi (dpi : Nat) : Nat :=
  dpi * 10000 / 254

def ihdrType : List Nat := [73, 72, 68, 82]

def physTag : List Nat := [112, 72, 89, 115]

/-- Outcome of the chunk-walk loop of `injectPNGpHYs`: either a valid
9-byte pHYs chunk was found at an offset, or the loop finished (by
truncation or exhaustion) carrying the end offset of the last IHDR
chunk seen, if any (Go's `ihdrEnd`, `-1` modelled as `none`). -/
inductive WalkResult where
  | phys (offset : Nat)
  | done (ihdrEnd : Option Nat)
deriving DecidableEq

/-- The chunk-walk loop of `injectPNGpHYs`, fuel-structured.  One fuel
unit is spent per loop iteration; callers pass fuel `data.length`,
which always exceeds the iteration count since every iteration
advances `offset` by at least 12. -/
def pngWalkF : Nat → List Nat → Nat → Option Nat → WalkResult
  | 0, _, _, ih => .done ih
  | fuel + 1, data, offset, ih =>
    if offset + 12 ≤ data.length then
      if offset + (12 + readBE32 data offset) ≤ data.length then
        if slice data (offset + 4) 4 = physTag ∧ readBE32 data offset = 9 then
          .phys offset
        else
          pngWalkF fuel data (offset + (12 + readBE32 data offset))
            (if slice data (offset + 4) 4 = ihdrType then
              some (offset + (12 + readBE32 data offset))
            else ih)
      else .done ih
    else .done ih

/-- The freshly constructed 21-byte pHYs chunk (length, type, X ppu,
Y ppu, unit byte 1, CRC over type+data). -/
def physChunkBytes (ppm : Nat) : List Nat :=
  be32Bytes 9 ++ physTag ++ be32Bytes ppm ++ be32Bytes ppm ++ [1] ++
    be32Bytes (crc32PNG (physTag ++ be32Bytes ppm ++ be32Bytes ppm ++ [1]))

/-- `injectPNGpHYs(data, dpi)`: overwrite an existing 9-byte pHYs chunk
in place (recomputing its CRC), or insert a fresh 21-byte pHYs chunk
immediately after IHDR; returns the input unchanged when shorter than
33 bytes or when the walk finds neither a valid pHYs chunk nor IHDR. -/
def injectPNGpHYs (data : List Nat) (dpi : Nat) : List Nat :=
  if data.length < 33 then data
  else
    match pngWalkF data.length data 8 none with
    | .phys off =>
        let d3 := (bePutU32 (bePutU32 data (off + 8) (ppmOfDpi dpi))
          (off + 12) (ppmOfDpi dpi)).set (off + 16) 1
        bePutU32 d3 (off + 17) (crc32PNG (slice d3 (off + 4) 13))
    | .done none => data
    | .done (some ihdrEnd) =>
        if ihdrEnd > data.length then data
        else data.take ihdrEnd ++ physChunkBytes (ppmOfDpi dpi) ++ data.drop ihdrEnd

/-! ### PNG byte streams as encoded chunk lists

A well-formed PNG is the 8-byte signature followed by encoded chunks,
each `length(4) ++ type(4) ++ data ++ crc(4)`.  The walk in
`injectPNGpHYs` never checks stored CRCs, so chunks carry their CRC
field as arbitrary bytes. -/

def pngSig : List Nat := [137, 80, 78, 71, 13, 10, 26, 10]

structure Chunk where
  ctype : List Nat
  cdata : List Nat
  ccrc : List Nat

/-- Structural well-formedness of one chunk: 4-byte type and CRC fields
and a data length representable in the 4-byte length field. -/
def Chunk.wf (c : Chunk) : Prop :=
  c.ctype.length = 4 ∧ c.ccrc.length = 4 ∧ c.cdata.length < 4294967296

def encodeChunk (c : Chunk) : List Nat :=
  be32Bytes c.cdata.length ++ c.ctype ++ c.cdata ++ c.ccrc

def encodeChunks (cs : List Chunk) : List Nat :=
  (cs.map encodeChunk).flatten

/-- The `ihdrEnd` tracking of the walk, restated over a chunk list:
fold left, remembering the end offset of the last IHDR chunk. -/
def walkIhdr (cs : List Chunk) (offset : Nat) (ih : Option Nat) : Option Nat :=
  match cs with
  | [] => ih
  | c :: rest =>
      walkIhdr rest (offset + (12 + c.cdata.length))
        (if c.ctype = ihdrType then some (offset + (12 + c.cdata.length)) else ih)

/-! ### Pixel pipeline (app.go `exifRotate`, `toRGB`, `flattenAlpha`,
`resizeIfNeeded`)

Decoded pixel buffers are opaque to the claims; `Img` records the
dimensions and buffer-variant facts the code branches on (`*image.RGBA`
/ `*image.NRGBA` type switches) and keeps the applied transforms as
free constructors.  Every `imaging` transform and every fresh canvas
returns an RGBA-family buffer, which `isRGBAFam` reflects. -/

inductive Img where
  | base (w h : Nat) (rgbaFamily : Bool)
  | flipH (i : Img)
  | rot180 (i : Img)
  | flipV (i : Img)
  | transpose (i : Img)
  | rot270 (i : Img)
  | transverse (i : Img)
  | rot90 (i : Img)
  | rgba (i : Img)
  | flatten (i : Img)
  | resized (i : Img) (w h : Nat)
deriving DecidableEq

def Img.dims : Img → Nat × Nat
  | base w h _ => (w, h)
  | flipH i => i.dims
  | rot180 i => i.dims
  | flipV i => i.dims
  | transpose i => (i.dims.2, i.dims.1)
  | rot270 i => (i.dims.2, i.dims.1)
  | transverse i => (i.dims.2, i.dims.1)
  | rot90 i => (i.dims.2, i.dims.1)
  | rgba i => i.dims
  | flatten i => i.dims
  | resized _ w h => (w, h)

def Img.isRGBAFam : Img → Bool
  | base _ _ v => v
  | _ => true

/-- Outcome of the EXIF read sequence in `exifRotate` /
`needsExifRotation`: file open failure, `exif.Decode` failure, missing
`Orientation` tag (`x.Get` failure), unreadable tag integer
(`tag.Int` failure), or an orientation value. -/
inductive ExifInput where
  | openErr
  | decodeErr
  | getErr
  | intErr
  | orient (n : Int)
deriving DecidableEq

/-- `exifRotate(path, img)` with the EXIF read outcome made explicit. -/
def exifRotateM (e : ExifInput) (img : Img) : Img × String :=
  match e with
  | .openErr => (img, "")
  | .decodeErr => (img, "")
  | .getErr => (img, "")
  | .intErr => (img, "EXIF_STRIPPED")
  | .orient n =>
      if n ≤ 1 then (img, "EXIF_STRIPPED")
      else if n = 2 then (.flipH img, "EXIF_FLIP_H")
      else if n = 3 then (.rot180 img, "EXIF_ROT_180")
      else if n = 4 then (.flipV img, "EXIF_FLIP_V")
      else if n = 5 then (.transpose img, "EXIF_TRANSPOSE")
      else if n = 6 then (.rot270 img, "EXIF_ROT_270")
      else if n = 7 then (.transverse img, "EXIF_TRANSVERSE")
      else if n = 8 then (.rot90 img, "EXIF_ROT_90")
      else (img, "EXIF_STRIPPED")

/-- `needsExifRotation(path)`: true only when a readable orientation
value exceeds 1. -/
def needsExifRotationM (e : ExifInput) : Bool :=
  match e with
  | .orient n => decide (1 < n)
  | _ => false

/-- `toRGB(img)`: no-op on `*image.RGBA` / `*image.NRGBA`, else draw
into a fresh RGBA canvas. -/
def toRGBM (img : Img) : Img × String :=
  if img.isRGBAFam then (img, "") else (.rgba img, "FORCE_sRGB")

/-- `flattenAlpha(img, semi)`: the type switch falls through for
non-RGBA-family buffers; whether the (strided) alpha sampling found a
semi-transparent pixel is the oracle `semi`, a property of the pixel
contents the embedding keeps abstract. -/
def flattenAlphaM (semi : Bool) (img : Img) : Img × String :=
  if ¬ img.isRGBAFam then (img, "")
  else if semi then (.flatten img, "ALPHA_FLAT_WHITE")
  else (img, "")

/-- `resizeIfNeeded(img)`.  Go computes the scaled side with
`int(float64(h) * float64(MaxImageLongSide) / float64(w))`; the model
uses the exact rational floor `h * MaxImageLongSide / w`. -/
def resizeIfNeededM (img : Img) : Img × String :=
  let w := img.dims.1
  let h := img.dims.2
  if max w h ≤ MaxImageLongSide then (img, "")
  else
    let newW := if w > h then MaxImageLongSide else w * MaxImageLongSide / h
    let newH := if w > h then h * MaxImageLongSide / w else MaxImageLongSide
    (.resized img newW newH,
      "RESIZE_" ++ toString w ++ "x" ++ toString h ++ "→" ++
        toString newW ++ "x" ++ toString newH)

/-! ### Safe two-phase decoder (app.go `decodeSafe`) -/

/-- A file as seen by `decodeSafe`: the header-decode outcome (phase 1),
whether seeking back succeeds, and the full pixel decode (phase 2) as a
function of the byte cap of the limiting reader it is given. -/
structure ImgSource where
  cfg : Except String (Int × Int)
  seekOk : Bool
  pixels : Nat → Except String Img

inductive DecodeError where
  | config (msg : String)
  | invalidDims (w h : Int)
  | monster (w h : Int)
  | pixelBomb (w h : Int)
  | seekFail
  | decodeFail (msg : String)
deriving DecidableEq

/-- `decodeSafe(path, format)`.  The second component records the byte
cap phase 2 was invoked with (`none`: phase 2 never attempted). -/
def decodeSafeM (s : ImgSource) : Except DecodeError Img × Option Nat :=
  match s.cfg with
  | .error msg => (.error (.config msg), none)
  | .ok (w, h) =>
      if w ≤ 0 ∨ h ≤ 0 then (.error (.invalidDims w h), none)
      else if w > MaxImageDimension ∨ h > MaxImageDimension then
        (.error (.monster w h), none)
      else if w * h > MaxPixelCount then (.error (.pixelBomb w h), none)
      else if ¬ s.seekOk then (.error .seekFail, none)
      else
        match s.pixels MaxDecompressedSize with
        | .error msg => (.error (.decodeFail msg), some MaxDecompressedSize)
        | .ok img => (.ok img, some MaxDecompressedSize)

/-! ### File paths

Paths are lists of characters; `extOf` is Go's `filepath.Ext` (scan
backwards for a dot, stopping at a path separator). -/

def extOfAux : List Char → List Char → List Char
  | [], _ => []
  | c :: rest, acc =>
      if c = '/' then []
      else if c = '.' then '.' :: acc
      else extOfAux rest (c :: acc)

def extOf (p : List Char) : List Char :=
  extOfAux p.reverse []

/-- Go `strings.TrimSuffix`. -/
def trimSuffixL (p s : List Char) : List Char :=
  if s.isSuffixOf p then p.take (p.length - s.length) else p

/-- The placeholder target path: `strings.TrimSuffix(path, filepath.Ext(path)) + ".svg"`. -/
def svgPathOf (p : List Char) : List Char :=
  trimSuffixL p (extOf p) ++ (".svg").toList

/-- The fixed placeholder SVG written by `placeholder` (app.go), verbatim. -/
def svgContent : String :=
  "<?xml version=\"1.0\" encoding=\"UTF-8\"?>\n<svg xmlns=\"http://www.w3.org/2000/svg\" width=\"400\" height=\"300\">\n  <rect width=\"400\" height=\"300\" fill=\"#f8f8f8\"/>\n  <rect x=\"10\" y=\"10\" width=\"380\" height=\"280\" fill=\"none\" stroke=\"#ddd\" stroke-width=\"2\" stroke-dasharray=\"8,4\"/>\n  <text x=\"200\" y=\"140\" text-anchor=\"middle\" font-family=\"sans-serif\" font-size=\"16\" fill=\"#999\">⚠️ 损坏图像已移除</text>\n  <text x=\"200\" y=\"165\" text-anchor=\"middle\" font-family=\"sans-serif\" font-size=\"11\" fill=\"#bbb\">Corrupted Image Removed</text>\n</svg>"

/-- Filesystem effects of one `sanitizeOne` run that the claims track. -/
inductive FileAct where
  | writeFile (path : List Char) (content : String)
  | removeFile (path : List Char)
deriving DecidableEq

/-- `placeholder(path)`: write the fixed SVG next to the original
(same base name, `.svg` extension), then delete the original. -/
def placeholderActs (path : List Char) : List FileAct :=
  [.writeFile (svgPathOf path) svgContent, .removeFile path]

/-- `extToFormat(ext)` (app.go). -/
def extToFormat (ext : List Char) : String :=
  let e := ext.map Char.toLower
  if e = (".jpg").toList ∨ e = (".jpeg").toList then "jpeg"
  else if e = (".png").toList then "png"
  else if e = (".gif").toList then "gif"
  else if e = (".bmp").toList then "bmp"
  else if e = (".tif").toList ∨ e = (".tiff").toList then "tiff"
  else if e = (".webp").toList then "webp"
  else ""

/-! ### Per-file sanitization (app.go `sanitizeOne`, `tryFastPath`) -/

structure SanitizationReport where
  filePath : List Char
  originalFormat : String
  actions : List String
  status : String
  error : String
  fileSizeBefore : Int
  fileSizeAfter : Int
deriving DecidableEq

/-- Outcomes of the I/O steps of one `sanitizeOne` run, made explicit:
`sniff` is `sniffFormat`, `decode` the outcome of `decodeSafe`,
`reencodeOk` the outcome of `reencode` (temp write + rename); `readOk`,
`fileBytes` and `fastWriteOk` belong to the fast path; `alphaSemi` is
the alpha-sampling oracle; `statBefore`/`statAfter` the two `os.Stat`
sizes (`none`: stat failed). -/
structure FileEnv where
  sniff : Except String String
  exif : ExifInput
  readOk : Bool
  fileBytes : List Nat
  fastWriteOk : Bool
  decode : Except String Img
  alphaSemi : Bool
  reencodeOk : Except String Unit
  statBefore : Option Int
  statAfter : Option Int

/-- `tryFastPath(path)`: clean JPEG short-circuit — extension jpg/jpeg,
sniffed jpeg, no EXIF rotation needed, raw bytes readable and at least
20 bytes, temp write + rename succeed. -/
def tryFastPathM (path : List Char) (e : FileEnv) : Option SanitizationReport :=
  let ext := (extOf path).map Char.toLower
  if ext ≠ (".jpg").toList ∧ ext ≠ (".jpeg").toList then none
  else
    match e.sniff with
    | .error _ => none
    | .ok fmt =>
        if fmt ≠ "jpeg" then none
        else if needsExifRotationM e.exif then none
        else if ¬ e.readOk ∨ e.fileBytes.length < 20 then none
        else if ¬ e.fastWriteOk then none
        else some {
          filePath := path
          originalFormat := "jpeg"
          actions := ["FAST_" ++ toString TargetDPI ++ "DPI"]
          status := "OK"
          error := ""
          fileSizeBefore := (e.fileBytes.length : Int)
          fileSizeAfter := ((injectJFIFDPI e.fileBytes TargetDPI).length : Int) }

/-- `sanitizeOne(path)`: the full per-file pipeline, returning the
report and the placeholder-substitution filesystem actions (empty on
the success paths, whose temp-write/rename effects no claim tracks). -/
def sanitizeOneM (path : List Char) (e : FileEnv) : SanitizationReport × List FileAct :=
  let sizeBefore : Int := e.statBefore.getD 0
  match tryFastPathM path e with
  | some r => (r, [])
  | none =>
    match e.sniff with
    | .error msg =>
        ({ filePath := path, originalFormat := "", actions := ["INVALID_REPLACED"],
           status := "FAILED", error := msg,
           fileSizeBefore := sizeBefore, fileSizeAfter := 0 },
         placeholderActs path)
    | .ok realFmt =>
      let extFmt := extToFormat (extOf path)
      let a1 : List String :=
        if extFmt ≠ "" ∧ extFmt ≠ realFmt
        then ["SPOOF_" ++ extFmt ++ "→" ++ realFmt] else []
      match e.decode with
      | .error msg =>
          ({ filePath := path, originalFormat := realFmt,
             actions := a1 ++ ["DECODE_FAIL_REPLACED"], status := "REPLACED",
             error := msg, fileSizeBefore := sizeBefore, fileSizeAfter := 0 },
           placeholderActs path)
      | .ok img0 =>
        let p1 := exifRotateM e.exif img0
        let a2 := a1 ++ (if p1.2 = "" then [] else [p1.2])
        let p2 := toRGBM p1.1
        let a3 := a2 ++ (if p2.2 = "" then [] else [p2.2])
        let p3 := flattenAlphaM e.alphaSemi p2.1
        let a4 := a3 ++ (if p3.2 = "" then [] else [p3.2])
        let p4 := resizeIfNeededM p3.1
        let a5 := a4 ++ (if p4.2 = "" then [] else [p4.2])
        match e.reencodeOk with
        | .error msg =>
            ({ filePath := path, originalFormat := realFmt,
               actions := a5 ++ ["REENCODE_FAILED"], status := "FAILED",
               error := msg, fileSizeBefore := sizeBefore, fileSizeAfter := 0 },
             placeholderActs path)
        | .ok _ =>
            let acts := a5 ++ ["FORCE_" ++ toString TargetDPI ++ "DPI", "CLEAN_BINARY"]
            ({ filePath := path, originalFormat := realFmt, actions := acts,
               status := if acts.length > 2 then "REPAIRED" else "OK", error := "",
               fileSizeBefore := sizeBefore, fileSizeAfter := e.statAfter.getD 0 },
             [])

/-! ### Orchestrator (app.go `sanitizeAllImages`)

Workers consume indices from a channel and write
`reports[idx] = sanitizeOne(imagePaths[idx])` into a pre-sized slice at
disjoint indices.  The schedule is abstracted as the order in which
index writes land: any interleaving of any number of workers is some
permutation of the discovery indices. -/

def writeResults (f : Nat → SanitizationReport) (init : List SanitizationReport)
    (order : List Nat) : List SanitizationReport :=
  order.foldl (fun acc i => acc.set i (f i)) init

def defaultReport : SanitizationReport :=
  { filePath := [], originalFormat := "", actions := [], status := "",
    error := "", fileSizeBefore := 0, fileSizeAfter := 0 }

def defaultEnv : FileEnv :=
  { sniff := .error "", exif := .openErr, readOk := false, fileBytes := [],
    fastWriteOk := false, decode := .error "", alphaSemi := false,
    reencodeOk := .error "", statBefore := none, statAfter := none }

/-- `sanitizeAllImages(dir)` under a given completion schedule: the
discovered files are `files` (discovery order), `order` is the order in
which the per-index report writes land. -/
def sanitizeAllImagesM (files : List (List Char × FileEnv)) (order : List Nat) :
    List SanitizationReport :=
  writeResults
    (fun i => (sanitizeOneM (files.getD i ([], defaultEnv)).1 (files.getD i ([], defaultEnv)).2).1)
    (List.replicate files.length defaultReport) order

/-! ### Container codec (app.go `unzipStreaming`, `zipEPUBStrict`)

Filesystem paths are lists of slash-free segments.  `filepath.Join`
followed by `filepath.Clean` is the stack-based segment normalization
`cleanSegs` (`.` and empty segments vanish; `..` pops, and pops nothing
at the root, as `Clean` does for absolute paths). -/

def cleanSegs (segs : List String) : List String :=
  segs.foldl
    (fun acc s =>
      if s = "" ∨ s = "." then acc
      else if s = ".." then acc.dropLast
      else acc ++ [s])
    []

/-- The zip-slip guard of `unzipStreaming`:
`strings.HasPrefix(filepath.Clean(fpath), filepath.Clean(dest) + separator)`
with `fpath = filepath.Join(dest, name)`, at segment level: the cleaned
destination is a strict segment prefix of the cleaned joined path. -/
def slipCheck (destSegs nameSegs : List String) : Bool :=
  let fpath := cleanSegs (destSegs ++ nameSegs)
  let dc := cleanSegs destSegs
  dc.isPrefixOf fpath && decide (dc.length < fpath.length)

/-- One archive entry as `unzipStreaming` sees it. -/
structure ZEntry where
  nameSegs : List String
  isDir : Bool
  content : List Nat
deriving DecidableEq

/-- Filesystem effects of extraction. -/
inductive FsAct where
  | mkdir (path : List String)
  | write (path : List String) (content : List Nat)
deriving DecidableEq

/-- `unzipStreaming(src, dest)`: entries failing the zip-slip guard are
skipped and extraction continues; directories become `MkdirAll`, files
become `MkdirAll(Dir(fpath))` plus a streamed write to `fpath`. -/
def unzipStreamingM (destSegs : List String) : List ZEntry → List FsAct
  | [] => []
  | e :: rest =>
      if slipCheck destSegs e.nameSegs then
        let fpath := cleanSegs (destSegs ++ e.nameSegs)
        if e.isDir then .mkdir fpath :: unzipStreamingM destSegs rest
        else .mkdir fpath.dropLast :: .write fpath e.content ::
          unzipStreamingM destSegs rest
      else unzipStreamingM destSegs rest

/-- One regular file under the source root, as the walk of
`zipEPUBStrict` visits it: its path relative to the root, split into
segments, plus its bytes. -/
structure SrcFile where
  segs : List String
  content : List Nat
deriving DecidableEq

/-- Go `bytes.TrimSpace` on ASCII content: strip leading and trailing
whitespace bytes. -/
def isSpaceByte (b : Nat) : Bool :=
  b = 9 || b = 10 || b = 11 || b = 12 || b = 13 || b = 32

def trimSpace (l : List Nat) : List Nat :=
  ((l.dropWhile isSpaceByte).reverse.dropWhile isSpaceByte).reverse

inductive ZipMethod where
  | store
  | deflate
deriving DecidableEq

structure ZipEntry where
  name : String
  method : ZipMethod
  payload : List Nat
deriving DecidableEq

/-- `filepath.Base` of a relative path given as segments. -/
def baseSeg (f : SrcFile) : String :=
  f.segs.getLastD ""

/-- `filepath.ToSlash(filepath.Rel(srcDir, path))` of a file under the
root: its segments joined with forward slashes. -/
def joinSlash (segs : List String) : String :=
  String.intercalate "/" segs

/-- `zipEPUBStrict(srcDir, destFile)`: the entry sequence written to the
archive.  `files` lists the regular files under the root in walk order;
`os.ReadFile(srcDir/mimetype)` succeeds exactly when a root-level
`mimetype` file is present. -/
def zipEPUBStrict (files : List SrcFile) : List ZipEntry :=
  (match files.find? (fun f => f.segs = ["mimetype"]) with
   | some f => [{ name := "mimetype", method := .store, payload := trimSpace f.content }]
   | none => []) ++
  files.filterMap fun f =>
    if baseSeg f = "mimetype" then none
    else some { name := joinSlash f.segs, method := .deflate, payload := f.content }

/-! ## Helper lemmas on byte lists -/

theorem getD_drop (l : List Nat) (i j : Nat) : (l.drop i).getD j 0 = l.getD (i + j) 0 := by
  simp [List.getD, List.getElem?_drop]

theorem readBE32_shift (l : List Nat) (off : Nat) :
    readBE32 l off = readBE32 (l.drop off) 0 := by
  simp [readBE32, getD_drop]

theorem readBE32_be32Bytes (v : Nat) (t : List Nat) (hv : v < 4294967296) :
    readBE32 (be32Bytes v ++ t) 0 = v := by
  simp [readBE32, be32Bytes, List.getD]
  omega

theorem be32Bytes_length (v : Nat) : (be32Bytes v).length = 4 := rfl

theorem slice_shift (l : List Nat) (off k n : Nat) :
    slice l (off + k) n = slice (l.drop off) k n := by
  simp [slice, List.drop_drop]

theorem slice_append_right (l r : List Nat) (k n : Nat) :
    slice (l ++ r) (l.length + k) n = slice r k n := by
  simp [slice, List.drop_append]

theorem length_of_drop_eq (l t : List Nat) (off : Nat) (hoff : off ≤ l.length)
    (h : l.drop off = t) : l.length = off + t.length := by
  have := List.length_drop off l
  rw [h] at this
  omega

theorem getElem?_of_slice (l : List Nat) (off n k : Nat) (s : List Nat)
    (hs : slice l off n = s) (hk : k < n) : l[off + k]? = s[k]? := by
  have h1 : s[k]? = (List.take n (List.drop off l))[k]? := by rw [← hs]; rfl
  rw [h1, List.getElem?_take, if_pos hk, List.getElem?_drop]

theorem set_of_getElem_eq (l : List Nat) : ∀ (i v : Nat), l[i]? = some v → l.set i v = l := by
  induction l with
  | nil => intro i v h; simp at h
  | cons a t ihl =>
    intro i v h
    cases i with
    | zero => simp at h; simp [List.set, h]
    | succ n => simp at h; simp [List.set, ihl n v h]

theorem bePutU32_self (l : List Nat) (off v : Nat)
    (hs : slice l off 4 = be32Bytes v) : bePutU32 l off v = l := by
  have h0 : l[off]? = some (v / 16777216 % 256) := by
    have := getElem?_of_slice l off 4 0 (be32Bytes v) hs (by omega)
    simpa [be32Bytes] using this
  have h1 : l[off + 1]? = some (v / 65536 % 256) := by
    have := getElem?_of_slice l off 4 1 (be32Bytes v) hs (by omega)
    simpa [be32Bytes] using this
  have h2 : l[off + 2]? = some (v / 256 % 256) := by
    have := getElem?_of_slice l off 4 2 (be32Bytes v) hs (by omega)
    simpa [be32Bytes] using this
  have h3 : l[off + 3]? = some (v % 256) := by
    have := getElem?_of_slice l off 4 3 (be32Bytes v) hs (by omega)
    simpa [be32Bytes] using this
  rw [bePutU32, set_of_getElem_eq l off _ h0, set_of_getElem_eq l (off + 1) _ h1,
    set_of_getElem_eq l (off + 2) _ h2, set_of_getElem_eq l (off + 3) _ h3]

/-! ## Claim C10 — the binary patchers are total and act as the identity
on inputs lacking the required structure -/

/-- C10: `injectJFIFDPI` returns byte strings shorter than 20 bytes
unchanged; `injectPNGpHYs` returns byte strings shorter than 33 bytes
unchanged, and likewise any input whose chunk walk ends (by a truncated
chunk or by exhausting the data) having found neither a valid 9-byte
pHYs chunk nor an IHDR chunk.  Both patchers are total Lean functions
on arbitrary byte lists, with every index access guarded. -/
theorem patchers_id_on_malformed (data : List Nat) (dpi : Nat) :
    (data.length < 20 → injectJFIFDPI data dpi = data) ∧
    (data.length < 33 → injectPNGpHYs data dpi = data) ∧
    (pngWalkF data.length data 8 none = .done none → injectPNGpHYs data dpi = data) := by
  refine ⟨fun hjl => ?_, fun hpl => ?_, fun hwk => ?_⟩
  · rw [injectJFIFDPI, if_pos hjl]
  · rw [injectPNGpHYs, if_pos hpl]
  · rw [injectPNGpHYs]
    split
    · rfl
    · rw [hwk]

/-- C10 witness: concrete malformed inputs — a 1-byte "JPEG", a 1-byte
"PNG", and 33 zero bytes (whose walk finds neither pHYs nor IHDR) —
all come back unchanged. -/
theorem patchers_id_on_malformed_witness :
    injectJFIFDPI [7] 96 = [7] ∧ injectPNGpHYs [7] 96 = [7] ∧
    injectPNGpHYs (List.replicate 33 0) 96 = List.replicate 33 0 :=
  ⟨(patchers_id_on_malformed [7] 96).1 (by decide),
   (patchers_id_on_malformed [7] 96).2.1 (by decide),
   (patchers_id_on_malformed (List.replicate 33 0) 96).2.2 (by decide)⟩

/-! ## Claim C4 — decodeSafe bounds checks precede the pixel decode -/

/-- C4: with the header reporting `w × h`, `decodeSafe` rejects
non-positive dimensions, then dimensions above `MaxImageDimension`
(50000), then pixel counts above `MaxPixelCount` (500,000,000), each
without attempting the phase-2 pixel decode; when the checks pass, the
phase-2 decode runs through a reader capped at `MaxDecompressedSize`
(500 MiB = 524,288,000 bytes). -/
theorem decodeSafe_bounds (s : ImgSource) (w h : Int) (hcfg : s.cfg = .ok (w, h)) :
    ((w ≤ 0 ∨ h ≤ 0) → decodeSafeM s = (.error (.invalidDims w h), none)) ∧
    (0 < w → 0 < h → (w > MaxImageDimension ∨ h > MaxImageDimension) →
      decodeSafeM s = (.error (.monster w h), none)) ∧
    (0 < w → 0 < h → w ≤ MaxImageDimension → h ≤ MaxImageDimension →
      w * h > MaxPixelCount → decodeSafeM s = (.error (.pixelBomb w h), none)) ∧
    (0 < w → 0 < h → w ≤ MaxImageDimension → h ≤ MaxImageDimension →
      w * h ≤ MaxPixelCount → s.seekOk = true →
      (decodeSafeM s).2 = some (500 * 1024 * 1024)) := by
  refine ⟨fun h1 => ?_, fun hw hh h2 => ?_, fun hw hh hw2 hh2 h3 => ?_,
    fun hw hh hw2 hh2 h4 hseek => ?_⟩
  · simp only [decodeSafeM, hcfg]
    rw [if_pos h1]
  · simp only [decodeSafeM, hcfg]
    rw [if_neg (by omega), if_pos h2]
  · simp only [decodeSafeM, hcfg]
    rw [if_neg (by omega), if_neg (by push_neg; exact ⟨hw2, hh2⟩), if_pos h3]
  · simp only [decodeSafeM, hcfg]
    rw [if_neg (by omega), if_neg (by push_neg; exact ⟨hw2, hh2⟩),
      if_neg (not_lt.mpr h4), if_neg (by simp [hseek])]
    have hms : MaxDecompressedSize = 500 * 1024 * 1024 := rfl
    cases hp : s.pixels MaxDecompressedSize <;> simp [hp, hms]

/-- C4 witness: a 60000×60000 header is rejected as a monster image with
no phase-2 decode; a 100×100 header passes and phase 2 runs with the
524,288,000-byte cap. -/
theorem decodeSafe_bounds_witness :
    decodeSafeM ⟨.ok (60000, 60000), true, fun _ => .error ""⟩ =
      (.error (.monster 60000 60000), none) ∧
    (decodeSafeM ⟨.ok (100, 100), true, fun _ => .ok (.base 100 100 false)⟩).2 =
      some (500 * 1024 * 1024) :=
  ⟨(decodeSafe_bounds ⟨.ok (60000, 60000), true, fun _ => .error ""⟩ 60000 60000 rfl).2.1
      (by decide) (by decide) (by right; decide),
   (decodeSafe_bounds ⟨.ok (100, 100), true, fun _ => .ok (.base 100 100 false)⟩ 100 100
      rfl).2.2.2 (by decide) (by decide) (by decide) (by decide) (by decide) rfl⟩

/-! ## Claim C2 — EXIF orientation mapping (corrected)

The claim says an absent orientation tag yields the action
`EXIF_STRIPPED`; in the code, an absent tag (`x.Get` failing), like an
unreadable EXIF block or an unopenable file, returns the empty action,
and only a *present* tag whose integer is unreadable or whose value is
outside 2–8 yields `EXIF_STRIPPED`. -/

/-- C2 counterexample: with the orientation tag absent (`x.Get`
fails), `exifRotate` returns the empty action, not `EXIF_STRIPPED`. -/
theorem exifRotate_absent_tag_empty_action :
    exifRotateM .getErr (Img.base 1 1 true) = (Img.base 1 1 true, "") ∧
    ("" : String) ≠ "EXIF_STRIPPED" := by
  exact ⟨rfl, by decide⟩

/-- C2 amended: orientations 2–8 map to flip-horizontal, rotate-180,
flip-vertical, transpose, rotate-270, transverse and rotate-90 with
pairwise-distinct action strings; a present orientation tag with value
≤ 1 or > 8, or an unreadable tag integer, yields no transform and
`EXIF_STRIPPED`; an unopenable file, unreadable EXIF block, or absent
orientation tag yields no transform and the empty action. -/
theorem exifRotate_mapping (img : Img) (n : Int) :
    exifRotateM .openErr img = (img, "") ∧
    exifRotateM .decodeErr img = (img, "") ∧
    exifRotateM .getErr img = (img, "") ∧
    exifRotateM .intErr img = (img, "EXIF_STRIPPED") ∧
    (n ≤ 1 → exifRotateM (.orient n) img = (img, "EXIF_STRIPPED")) ∧
    exifRotateM (.orient 2) img = (.flipH img, "EXIF_FLIP_H") ∧
    exifRotateM (.orient 3) img = (.rot180 img, "EXIF_ROT_180") ∧
    exifRotateM (.orient 4) img = (.flipV img, "EXIF_FLIP_V") ∧
    exifRotateM (.orient 5) img = (.transpose img, "EXIF_TRANSPOSE") ∧
    exifRotateM (.orient 6) img = (.rot270 img, "EXIF_ROT_270") ∧
    exifRotateM (.orient 7) img = (.transverse img, "EXIF_TRANSVERSE") ∧
    exifRotateM (.orient 8) img = (.rot90 img, "EXIF_ROT_90") ∧
    (8 < n → exifRotateM (.orient n) img = (img, "EXIF_STRIPPED")) ∧
    List.Nodup ["EXIF_STRIPPED", "EXIF_FLIP_H", "EXIF_ROT_180", "EXIF_FLIP_V",
      "EXIF_TRANSPOSE", "EXIF_ROT_270", "EXIF_TRANSVERSE", "EXIF_ROT_90"] := by
  refine ⟨rfl, rfl, rfl, rfl, fun hle => ?_, ?_, ?_, ?_, ?_, ?_, ?_, ?_, fun hgt => ?_, by decide⟩
  · rw [exifRotateM, if_pos hle]
  · norm_num [exifRotateM]
  · norm_num [exifRotateM]
  · norm_num [exifRotateM]
  · norm_num [exifRotateM]
  · norm_num [exifRotateM]
  · norm_num [exifRotateM]
  · norm_num [exifRotateM]
  · rw [exifRotateM]
    repeat rw [if_neg (by omega)]

/-- C2 amended witness: the mapping at a concrete image for the
hypothesis-guarded orientations 1 and 9. -/
theorem exifRotate_mapping_witness :
    exifRotateM (.orient 1) (Img.base 2 3 false) = (Img.base 2 3 false, "EXIF_STRIPPED") ∧
    exifRotateM (.orient 9) (Img.base 2 3 false) = (Img.base 2 3 false, "EXIF_STRIPPED") :=
  ⟨(exifRotate_mapping (Img.base 2 3 false) 1).2.2.2.2.1 (by decide),
   (exifRotate_mapping (Img.base 2 3 false) 9).2.2.2.2.2.2.2.2.2.2.2.2.1 (by decide)⟩

/-! ## Claim C5 — JPEG JFIF DPI patch -/

theorem jfifScan_some_bounds (data : List Nat) (i : Nat) (h : jfifScan data = some i) :
    2 ≤ i ∧ i + 16 < data.length := by
  have hmem := List.mem_of_find?_eq_some h
  rw [List.mem_range'] at hmem
  obtain ⟨k, hk, hik⟩ := hmem
  omega

/-- C5: on inputs of at least 20 bytes, when the scan finds a JFIF APP0
segment the patch is in place — the length is unchanged, the units byte
(offset `i+11`) becomes 1, and the X and Y density fields (offsets
`i+12`, `i+14`) read back as the injected DPI in big-endian; when no
JFIF segment is found, the output is 18 bytes longer, the first two
bytes (the SOI marker `FF D8`) are unchanged, and the fresh 18-byte
APP0 segment sits immediately after them. -/
theorem injectJFIFDPI_spec (data : List Nat) (dpi : Nat) (h20 : 20 ≤ data.length)
    (hdpi : dpi < 65536) (hsoi : slice data 0 2 = [255, 216]) :
    (∀ i, jfifScan data = some i →
      (injectJFIFDPI data dpi).length = data.length ∧
      (injectJFIFDPI data dpi).getD (i + 11) 0 = 1 ∧
      readBE16 (injectJFIFDPI data dpi) (i + 12) = dpi ∧
      readBE16 (injectJFIFDPI data dpi) (i + 14) = dpi) ∧
    (jfifScan data = none →
      (injectJFIFDPI data dpi).length = data.length + 18 ∧
      slice (injectJFIFDPI data dpi) 0 2 = [255, 216] ∧
      slice (injectJFIFDPI data dpi) 2 18 = jfifSeg dpi ∧
      (jfifSeg dpi).length = 18) := by
  constructor
  · intro i hscan
    obtain ⟨hi2, hib⟩ := jfifScan_some_bounds data i hscan
    rw [injectJFIFDPI, if_neg (by omega), hscan]
    have h11 : (bePutU16 (bePutU16 (data.set (i + 11) 1) (i + 12) (dpi % 65536))
        (i + 14) (dpi % 65536))[i + 11]? = some 1 := by
      rw [bePutU16, bePutU16,
        List.getElem?_set_ne (show i + 15 ≠ i + 11 by omega),
        List.getElem?_set_ne (show i + 14 ≠ i + 11 by omega),
        List.getElem?_set_ne (show i + 13 ≠ i + 11 by omega),
        List.getElem?_set_ne (show i + 12 ≠ i + 11 by omega),
        List.getElem?_set_self (by omega)]
    have h12 : (bePutU16 (bePutU16 (data.set (i + 11) 1) (i + 12) (dpi % 65536))
        (i + 14) (dpi % 65536))[i + 12]? = some (dpi % 65536 / 256 % 256) := by
      rw [bePutU16, bePutU16,
        List.getElem?_set_ne (show i + 15 ≠ i + 12 by omega),
        List.getElem?_set_ne (show i + 14 ≠ i + 12 by omega),
        List.getElem?_set_ne (show i + 13 ≠ i + 12 by omega),
        List.getElem?_set_self (by simp; omega)]
    have h13 : (bePutU16 (bePutU16 (data.set (i + 11) 1) (i + 12) (dpi % 65536))
        (i + 14) (dpi % 65536))[i + 13]? = some (dpi % 65536 % 256) := by
      rw [bePutU16, bePutU16,
        List.getElem?_set_ne (show i + 15 ≠ i + 13 by omega),
        List.getElem?_set_ne (show i + 14 ≠ i + 13 by omega),
        List.getElem?_set_self (by simp; omega)]
    have h14 : (bePutU16 (bePutU16 (data.set (i + 11) 1) (i + 12) (dpi % 65536))
        (i + 14) (dpi % 65536))[i + 14]? = some (dpi % 65536 / 256 % 256) := by
      rw [bePutU16, bePutU16,
        List.getElem?_set_ne (show i + 15 ≠ i + 14 by omega),
        List.getElem?_set_self (by simp; omega)]
    have h15 : (bePutU16 (bePutU16 (data.set (i + 11) 1) (i + 12) (dpi % 65536))
        (i + 14) (dpi % 65536))[i + 15]? = some (dpi % 65536 % 256) := by
      rw [bePutU16, bePutU16, List.getElem?_set_self (by simp; omega)]
    refine ⟨by simp [bePutU16], ?_, ?_, ?_⟩
    · simp [List.getD, h11]
    · simp [readBE16, List.getD, h12, h13]
      omega
    · simp [readBE16, List.getD, h14, h15]
      omega
  · intro hscan
    rw [injectJFIFDPI, if_neg (by omega), hscan]
    have ht2 : (data.take 2).length = 2 := by simp; omega
    have hs2 : data.take 2 = [255, 216] := by simpa [slice] using hsoi
    refine ⟨?_, ?_, ?_, rfl⟩
    · simp [jfifSeg]
      omega
    · rw [List.append_assoc]
      simp only [slice, List.drop_zero]
      rw [List.take_left' ht2, hs2]
    · rw [List.append_assoc]
      simp only [slice]
      rw [List.drop_left' ht2, List.take_left' (show (jfifSeg dpi).length = 18 from rfl)]

/-- C5 witness: a 22-byte JPEG with a JFIF APP0 segment has its Y
density patched in place to 96; a 20-byte JPEG without one grows by
exactly 18 bytes. -/
theorem injectJFIFDPI_spec_witness :
    readBE16 (injectJFIFDPI
      [255, 216, 255, 224, 0, 16, 74, 70, 73, 70, 0, 1, 1, 0, 0, 72, 0, 72, 0, 0,
        255, 217] 96) 16 = 96 ∧
    (injectJFIFDPI [255, 216, 7, 7, 7, 7, 7, 7, 7, 7, 7, 7, 7, 7, 7, 7, 7, 7, 7, 7]
        96).length =
      ([255, 216, 7, 7, 7, 7, 7, 7, 7, 7, 7, 7, 7, 7, 7, 7, 7, 7, 7, 7] :
        List Nat).length + 18 :=
  ⟨((injectJFIFDPI_spec
      [255, 216, 255, 224, 0, 16, 74, 70, 73, 70, 0, 1, 1, 0, 0, 72, 0, 72, 0, 0,
        255, 217] 96 (by decide) (by decide) (by decide)).1 2 (by decide)).2.2.2,
   ((injectJFIFDPI_spec [255, 216, 7, 7, 7, 7, 7, 7, 7, 7, 7, 7, 7, 7, 7, 7, 7, 7, 7, 7]
      96 (by decide) (by decide) (by decide)).2 (by decide)).1⟩

/-! ## Claim C3 — strict OCF repacking (corrected)

The code writes the `mimetype` entry only when reading
`srcRoot/mimetype` succeeds, and `bytes.TrimSpace` trims leading as
well as trailing whitespace. -/

/-- C3 counterexample: a source tree without a root `mimetype` file
yields an archive whose first entry is not `mimetype`; and a `mimetype`
payload with leading whitespace is trimmed on both ends, not only of
trailing whitespace. -/
theorem zipStrict_not_unconditional :
    ((zipEPUBStrict [⟨["a.txt"], [97]⟩]).head? =
        some ⟨"a.txt", ZipMethod.deflate, [97]⟩ ∧ "a.txt" ≠ "mimetype") ∧
    (zipEPUBStrict [⟨["mimetype"], [32, 97]⟩] =
        [⟨"mimetype", ZipMethod.store, [97]⟩] ∧ ([97] : List Nat) ≠ [32, 97]) := by
  decide

/-- C3 amended: whenever the source root contains a `mimetype` file,
the archive's first entry is `mimetype`, written with method Store and
its payload trimmed of leading and trailing whitespace, before any
other entry; every other entry is a source file written with method
Deflate under its forward-slash-joined relative path (files whose base
name is `mimetype` are excluded from the walk). -/
theorem zipStrict_spec (files : List SrcFile) (mtf : SrcFile)
    (hmt : files.find? (fun f => f.segs = ["mimetype"]) = some mtf) :
    (zipEPUBStrict files).head? =
      some { name := "mimetype", method := ZipMethod.store,
             payload := trimSpace mtf.content } ∧
    ∀ e ∈ (zipEPUBStrict files).tail,
      e.method = ZipMethod.deflate ∧ ∃ f ∈ files, baseSeg f ≠ "mimetype" ∧
        e.name = joinSlash f.segs ∧ e.payload = f.content := by
  rw [zipEPUBStrict, hmt]
  constructor
  · rfl
  · intro e he
    have he2 : e ∈ files.filterMap fun f =>
        if baseSeg f = "mimetype" then none
        else some { name := joinSlash f.segs, method := ZipMethod.deflate,
                    payload := f.content } := by
      simpa using he
    rw [List.mem_filterMap] at he2
    obtain ⟨f, hf, heq⟩ := he2
    by_cases hb : baseSeg f = "mimetype"
    · rw [if_pos hb] at heq
      cases heq
    · rw [if_neg hb] at heq
      cases heq
      exact ⟨rfl, f, hf, hb, rfl, rfl⟩

/-- C3 amended witness: a two-file tree with a root `mimetype` (payload
`"a "`) packs `mimetype` first, stored and trimmed. -/
theorem zipStrict_spec_witness :
    (List.find? (fun f => f.segs = ["mimetype"])
        [⟨["mimetype"], [97, 32]⟩, ⟨["sub", "b.txt"], [98]⟩] =
      some (⟨["mimetype"], [97, 32]⟩ : SrcFile)) ∧
    (zipEPUBStrict [⟨["mimetype"], [97, 32]⟩, ⟨["sub", "b.txt"], [98]⟩]).head? =
      some { name := "mimetype", method := ZipMethod.store,
             payload := trimSpace [97, 32] } :=
  ⟨by decide,
   (zipStrict_spec [⟨["mimetype"], [97, 32]⟩, ⟨["sub", "b.txt"], [98]⟩]
      ⟨["mimetype"], [97, 32]⟩ (by decide)).1⟩

/-! ## Claim C7 — zip-slip defense in unzipStreaming -/

/-- C7: extraction never writes a file whose cleaned joined path does
not lie strictly inside the cleaned destination root, and an entry
failing the guard is skipped without disturbing the extraction of the
remaining entries. -/
theorem unzip_zipslip_safe (destSegs : List String) :
    (∀ (entries : List ZEntry) (p : List String) (c : List Nat),
      FsAct.write p c ∈ unzipStreamingM destSegs entries →
      cleanSegs destSegs <+: p ∧ (cleanSegs destSegs).length < p.length) ∧
    (∀ (es1 : List ZEntry) (e : ZEntry) (es2 : List ZEntry),
      slipCheck destSegs e.nameSegs = false →
      unzipStreamingM destSegs (es1 ++ e :: es2) =
        unzipStreamingM destSegs (es1 ++ es2)) := by
  constructor
  · intro entries
    induction entries with
    | nil => intro p c h; simp [unzipStreamingM] at h
    | cons a rest ihr =>
      intro p c h
      rw [unzipStreamingM] at h
      by_cases hchk : slipCheck destSegs a.nameSegs = true
      · rw [if_pos hchk] at h
        simp only [slipCheck, Bool.and_eq_true, List.isPrefixOf_iff_prefix,
          decide_eq_true_eq] at hchk
        by_cases hdir : a.isDir = true
        · rw [if_pos hdir] at h
          rcases List.mem_cons.mp h with heq | hin
          · cases heq
          · exact ihr p c hin
        · rw [if_neg hdir] at h
          rcases List.mem_cons.mp h with heq | hin
          · cases heq
          · rcases List.mem_cons.mp hin with heq2 | hin2
            · cases heq2
              exact hchk
            · exact ihr p c hin2
      · rw [if_neg hchk] at h
        exact ihr p c h
  · intro es1 e es2 hfalse
    induction es1 with
    | nil =>
      simp only [List.nil_append]
      rw [unzipStreamingM, if_neg (by simp [hfalse])]
    | cons a t ihr =>
      simp only [List.cons_append]
      rw [unzipStreamingM, unzipStreamingM]
      simp only [ihr]

/-- C7 witness: an entry named `../../evil.txt` fails the guard and is
skipped, while the other entry of the archive still extracts, with its
write landing strictly inside the destination root. -/
theorem unzip_zipslip_safe_witness :
    slipCheck ["tmp", "out"] ["..", "..", "evil.txt"] = false ∧
    unzipStreamingM ["tmp", "out"]
        [⟨["..", "..", "evil.txt"], false, [1]⟩, ⟨["ok.txt"], false, [2]⟩] =
      unzipStreamingM ["tmp", "out"] [⟨["ok.txt"], false, [2]⟩] ∧
    unzipStreamingM ["tmp", "out"] [⟨["ok.txt"], false, [2]⟩] =
      [.mkdir ["tmp", "out"], .write ["tmp", "out", "ok.txt"] [2]] :=
  ⟨by decide,
   (unzip_zipslip_safe ["tmp", "out"]).2 [] ⟨["..", "..", "evil.txt"], false, [1]⟩
     [⟨["ok.txt"], false, [2]⟩] (by decide),
   by decide⟩

/-! ## Claim C8 — failure routing and placeholder substitution -/

set_option maxRecDepth 16384

theorem repaired_ok_ne (c : Prop) [Decidable c] :
    (if c then "REPAIRED" else "OK") ≠ "FAILED" ∧
      (if c then "REPAIRED" else "OK") ≠ "REPLACED" := by
  split <;> exact ⟨by decide, by decide⟩

/-- C8: the report status is FAILED exactly when format sniffing fails
or (decoding having succeeded) re-encoding fails, and REPLACED exactly
when decoding fails; in each of these cases the filesystem effect is
writing the fixed placeholder SVG at the same base name with the
`.svg` extension and deleting the original.  The fixed SVG is 400×300
with the dashed border and carries the "Corrupted Image Removed"
caption in both languages. -/
theorem sanitizeOne_status_spec (path : List Char) (e : FileEnv) :
    ((sanitizeOneM path e).1.status = "FAILED" ↔
      tryFastPathM path e = none ∧
        ((∃ msg, e.sniff = .error msg) ∨
         ((∃ fmt, e.sniff = .ok fmt) ∧ (∃ img, e.decode = .ok img) ∧
          (∃ msg, e.reencodeOk = .error msg)))) ∧
    ((sanitizeOneM path e).1.status = "REPLACED" ↔
      tryFastPathM path e = none ∧ (∃ fmt, e.sniff = .ok fmt) ∧
        (∃ msg, e.decode = .error msg)) ∧
    ((sanitizeOneM path e).1.status = "FAILED" ∨
        (sanitizeOneM path e).1.status = "REPLACED" →
      (sanitizeOneM path e).2 =
        [FileAct.writeFile (svgPathOf path) svgContent, FileAct.removeFile path]) ∧
    ("Corrupted Image Removed".toList <:+: svgContent.toList ∧
      "损坏图像已移除".toList <:+: svgContent.toList ∧
      "width=\"400\" height=\"300\"".toList <:+: svgContent.toList) := by
  have hsvg : "Corrupted Image Removed".toList <:+: svgContent.toList ∧
      "损坏图像已移除".toList <:+: svgContent.toList ∧
      "width=\"400\" height=\"300\"".toList <:+: svgContent.toList := by decide
  rcases hfp : tryFastPathM path e with _ | r
  · rcases hsn : e.sniff with msg | fmt
    · refine ⟨?_, ?_, ?_, hsvg⟩
      · simp [sanitizeOneM, hfp, hsn]
      · simp [sanitizeOneM, hfp, hsn]
      · intro _
        simp [sanitizeOneM, hfp, hsn, placeholderActs]
    · rcases hdec : e.decode with dmsg | img
      · refine ⟨?_, ?_, ?_, hsvg⟩
        · simp [sanitizeOneM, hfp, hsn, hdec]
        · simp [sanitizeOneM, hfp, hsn, hdec]
        · intro _
          simp [sanitizeOneM, hfp, hsn, hdec, placeholderActs]
      · rcases hre : e.reencodeOk with rmsg | u
        · refine ⟨?_, ?_, ?_, hsvg⟩
          · simp [sanitizeOneM, hfp, hsn, hdec, hre]
          · simp [sanitizeOneM, hfp, hsn, hdec, hre]
          · intro _
            simp [sanitizeOneM, hfp, hsn, hdec, hre, placeholderActs]
        · refine ⟨?_, ?_, ?_, hsvg⟩
          · simp only [sanitizeOneM, hfp, hsn, hdec, hre]
            constructor
            · intro hst
              exact absurd hst (repaired_ok_ne _).1
            · rintro ⟨-, h | h⟩ <;> simp_all
          · simp only [sanitizeOneM, hfp, hsn, hdec, hre]
            constructor
            · intro hst
              exact absurd hst (repaired_ok_ne _).2
            · rintro ⟨-, -, msg, h⟩
              simp [hdec] at h
          · simp only [sanitizeOneM, hfp, hsn, hdec, hre]
            intro hst
            rcases hst with hst | hst
            · exact absurd hst (repaired_ok_ne _).1
            · exact absurd hst (repaired_ok_ne _).2

  · have hst : (sanitizeOneM path e).1.status = "OK" := by
      have : (sanitizeOneM path e).1 = r := by simp [sanitizeOneM, hfp]
      rw [this]
      rw [tryFastPathM] at hfp
      split at hfp
      · cases hfp
      · split at hfp
        · cases hfp
        · split at hfp
          · cases hfp
          · split at hfp
            · cases hfp
            · split at hfp
              · cases hfp
              · split at hfp
                · cases hfp
                · cases hfp
                  rfl
    refine ⟨?_, ?_, ?_, hsvg⟩
    · simp [hst, hfp]
    · simp [hst, hfp]
    · intro h
      rw [hst] at h
      rcases h with h | h <;> simp at h

/-- C8 witness: a PNG whose sniff fails gets status FAILED, and the
effects are exactly writing `img.svg` with the fixed SVG and removing
`img.png`. -/
theorem sanitizeOne_status_spec_witness :
    (sanitizeOneM ("img.png").toList
        { sniff := .error "bad", exif := .openErr, readOk := false, fileBytes := [],
          fastWriteOk := false, decode := .error "", alphaSemi := false,
          reencodeOk := .error "", statBefore := none, statAfter := none }).1.status =
      "FAILED" ∧
    (sanitizeOneM ("img.png").toList
        { sniff := .error "bad", exif := .openErr, readOk := false, fileBytes := [],
          fastWriteOk := false, decode := .error "", alphaSemi := false,
          reencodeOk := .error "", statBefore := none, statAfter := none }).2 =
      [FileAct.writeFile (svgPathOf ("img.png").toList) svgContent,
        FileAct.removeFile ("img.png").toList] ∧
    svgPathOf ("img.png").toList = ("img.svg").toList := by
  have h := sanitizeOne_status_spec ("img.png").toList
    { sniff := .error "bad", exif := .openErr, readOk := false, fileBytes := [],
      fastWriteOk := false, decode := .error "", alphaSemi := false,
      reencodeOk := .error "", statBefore := none, statAfter := none }
  have hs := (h.1).mpr ⟨by decide, Or.inl ⟨"bad", rfl⟩⟩
  exact ⟨hs, h.2.2.1 (Or.inl hs), by decide⟩

/-! ## Claim C9 — report order equals discovery order, independent of
completion order -/

theorem writeResults_getElem (f : Nat → SanitizationReport) :
    ∀ (order : List Nat) (init : List SanitizationReport) (j : Nat),
      (writeResults f init order)[j]? =
        if j ∈ order ∧ j < init.length then some (f j) else init[j]? := by
  intro order
  induction order with
  | nil => intro init j; simp [writeResults]
  | cons i rest ihr =>
    intro init j
    have hstep : writeResults f init (i :: rest) = writeResults f (init.set i (f i)) rest := rfl
    rw [hstep, ihr]
    simp only [List.length_set]
    by_cases hj : j ∈ rest ∧ j < init.length
    · rw [if_pos hj, if_pos ⟨List.mem_cons_of_mem i hj.1, hj.2⟩]
    · rw [if_neg hj]
      by_cases hji : j = i
      · subst hji
        by_cases hlt : j < init.length
        · rw [List.getElem?_set_self hlt, if_pos ⟨List.mem_cons_self j rest, hlt⟩]
        · rw [List.set_eq_of_length_le (le_of_not_lt hlt), if_neg (fun hc => hlt hc.2)]
      · rw [List.getElem?_set_ne (fun he => hji he.symm),
          if_neg (fun hc => by
            rcases List.mem_cons.mp hc.1 with h1 | h1
            · exact hji h1
            · exact hj ⟨h1, hc.2⟩)]

/-- C9: for any two completion schedules (any permutations of the
discovery indices — in particular those produced by 1 worker and by 8
workers), the orchestrator's report list is the per-file sanitization
mapped over the discovered files in discovery order; the two runs are
therefore identical in content and order. -/
theorem sanitizeAll_order_independent (files : List (List Char × FileEnv))
    (order1 order2 : List Nat)
    (h1 : order1.Perm (List.range files.length))
    (h2 : order2.Perm (List.range files.length)) :
    sanitizeAllImagesM files order1 =
      files.map (fun pe => (sanitizeOneM pe.1 pe.2).1) ∧
    sanitizeAllImagesM files order1 = sanitizeAllImagesM files order2 := by
  have key : ∀ order : List Nat, order.Perm (List.range files.length) →
      sanitizeAllImagesM files order =
        files.map fun pe => (sanitizeOneM pe.1 pe.2).1 := by
    intro order hp
    apply List.ext_getElem?
    intro j
    rw [sanitizeAllImagesM, writeResults_getElem]
    simp only [List.length_replicate]
    by_cases hj : j < files.length
    · have hmem : j ∈ order := (hp.mem_iff).2 (List.mem_range.mpr hj)
      rw [if_pos ⟨hmem, hj⟩, List.getElem?_map, List.getElem?_eq_getElem hj]
      simp [List.getD, List.getElem?_eq_getElem hj]
    · rw [if_neg (fun hc => hj hc.2), List.getElem?_replicate, if_neg hj,
        List.getElem?_map, List.getElem?_eq_none (le_of_not_lt hj)]
      rfl
  exact ⟨key order1 h1, by rw [key order1 h1, key order2 h2]⟩

/-- C9 witness: two discovered files processed in the two possible
completion orders give the same report list, equal to the map in
discovery order. -/
theorem sanitizeAll_order_independent_witness :
    sanitizeAllImagesM
        [(("a.png").toList, defaultEnv), (("b.png").toList, defaultEnv)] [1, 0] =
      [(("a.png").toList, defaultEnv), (("b.png").toList, defaultEnv)].map
        (fun pe => (sanitizeOneM pe.1 pe.2).1) ∧
    sanitizeAllImagesM
        [(("a.png").toList, defaultEnv), (("b.png").toList, defaultEnv)] [1, 0] =
      sanitizeAllImagesM
        [(("a.png").toList, defaultEnv), (("b.png").toList, defaultEnv)] [0, 1] :=
  sanitizeAll_order_independent
    [(("a.png").toList, defaultEnv), (("b.png").toList, defaultEnv)] [1, 0] [0, 1]
    (by decide) (by decide)

/-! ## PNG chunk-walk lemmas (shared by C1 and C6) -/

theorem encodeChunk_length (c : Chunk) (h : c.wf) :
    (encodeChunk c).length = 12 + c.cdata.length := by
  obtain ⟨h1, h2, h3⟩ := h
  simp [encodeChunk, be32Bytes, h1, h2]
  omega

theorem encodeChunks_cons (c : Chunk) (cs : List Chunk) :
    encodeChunks (c :: cs) = encodeChunk c ++ encodeChunks cs := by
  simp [encodeChunks]

theorem length_encodeChunks_ge (cs : List Chunk) (h : ∀ c ∈ cs, c.wf) :
    12 * cs.length ≤ (encodeChunks cs).length := by
  induction cs with
  | nil => simp [encodeChunks]
  | cons c rest ihr =>
    rw [encodeChunks_cons]
    have hc := encodeChunk_length c (h c (List.mem_cons_self c rest))
    have hr := ihr fun x hx => h x (List.mem_cons_of_mem c hx)
    simp only [List.length_append, List.length_cons, hc]
    omega

/-- What the walk reads at the start of an encoded chunk: the length
field, the type field, the total length so far, and the tail after the
chunk. -/
theorem pngWalkF_step (data : List Nat) (offset : Nat) (c : Chunk)
    (rest2 : List Nat) (hwf : c.wf) (hoff : offset ≤ data.length)
    (hdrop : data.drop offset = encodeChunk c ++ rest2) :
    readBE32 data offset = c.cdata.length ∧
    slice data (offset + 4) 4 = c.ctype ∧
    data.length = offset + (12 + c.cdata.length) + rest2.length ∧
    data.drop (offset + (12 + c.cdata.length)) = rest2 := by
  obtain ⟨h1, h2, h3⟩ := hwf
  have hclen : (encodeChunk c).length = 12 + c.cdata.length :=
    encodeChunk_length c ⟨h1, h2, h3⟩
  have hlen := length_of_drop_eq data _ offset hoff hdrop
  have hassoc : encodeChunk c ++ rest2 =
      be32Bytes c.cdata.length ++ (c.ctype ++ (c.cdata ++ (c.ccrc ++ rest2))) := by
    simp [encodeChunk, List.append_assoc]
  refine ⟨?_, ?_, ?_, ?_⟩
  · rw [readBE32_shift, hdrop, hassoc, readBE32_be32Bytes _ _ h3]
  · rw [slice_shift, hdrop, hassoc]
    simp only [slice]
    rw [List.drop_left' (be32Bytes_length _), List.take_left' h1]
  · rw [hlen, List.length_append, hclen]
    omega
  · rw [← List.drop_drop, hdrop]
    exact List.drop_left' hclen

theorem walkIhdr_no_ihdr (cs : List Chunk) :
    ∀ (offset : Nat) (ih : Option Nat), (∀ c ∈ cs, c.ctype ≠ ihdrType) →
      walkIhdr cs offset ih = ih := by
  induction cs with
  | nil => intro offset ih _; rfl
  | cons c rest ihr =>
    intro offset ih h
    rw [walkIhdr, if_neg (h c (List.mem_cons_self c rest))]
    exact ihr _ _ fun x hx => h x (List.mem_cons_of_mem c hx)

/-- The walk over encoded chunks containing no valid pHYs chunk ends
with the tracked IHDR end offset. -/
theorem pngWalkF_no_phys :
    ∀ (cs : List Chunk) (fuel offset : Nat) (ih : Option Nat) (data : List Nat),
      (∀ c ∈ cs, c.wf) →
      (∀ c ∈ cs, ¬(c.ctype = physTag ∧ c.cdata.length = 9)) →
      offset ≤ data.length →
      data.drop offset = encodeChunks cs →
      cs.length < fuel →
      pngWalkF fuel data offset ih = .done (walkIhdr cs offset ih) := by
  intro cs
  induction cs with
  | nil =>
    intro fuel offset ih data _ _ hoff hdrop hfuel
    cases fuel with
    | zero => omega
    | succ m =>
      have hlen : data.length = offset := by
        have := length_of_drop_eq data _ offset hoff hdrop
        simpa [encodeChunks] using this
      rw [pngWalkF, if_neg (by omega)]
      rfl
  | cons c rest ihr =>
    intro fuel offset ih data hwf hnp hoff hdrop hfuel
    cases fuel with
    | zero => simp at hfuel
    | succ m =>
      rw [encodeChunks_cons] at hdrop
      obtain ⟨hbe, hty, hlen, hdrop2⟩ := pngWalkF_step data offset c (encodeChunks rest)
        (hwf c (List.mem_cons_self c rest)) hoff hdrop
      rw [pngWalkF, hbe, hty, if_pos (by omega), if_pos (by omega),
        if_neg (hnp c (List.mem_cons_self c rest)),
        ihr m (offset + (12 + c.cdata.length)) _ data
          (fun x hx => hwf x (List.mem_cons_of_mem c hx))
          (fun x hx => hnp x (List.mem_cons_of_mem c hx))
          (by omega) hdrop2 (by simp at hfuel; omega)]
      rfl

/-- The walk over encoded chunks finds the first valid pHYs chunk, at
the byte offset where its encoding starts. -/
theorem pngWalkF_finds_phys :
    ∀ (pre : List Chunk) (c : Chunk) (post : List Chunk) (fuel offset : Nat)
      (ih : Option Nat) (data : List Nat),
      (∀ p ∈ pre, p.wf) → c.wf →
      (∀ p ∈ pre, ¬(p.ctype = physTag ∧ p.cdata.length = 9)) →
      c.ctype = physTag → c.cdata.length = 9 →
      offset ≤ data.length →
      data.drop offset = encodeChunks (pre ++ c :: post) →
      pre.length < fuel →
      pngWalkF fuel data offset ih = .phys (offset + (encodeChunks pre).length) := by
  intro pre
  induction pre with
  | nil =>
    intro c post fuel offset ih data _ hcwf _ hcty hclen hoff hdrop hfuel
    cases fuel with
    | zero => omega
    | succ m =>
      rw [List.nil_append, encodeChunks_cons] at hdrop
      obtain ⟨hbe, hty, hlen, _⟩ := pngWalkF_step data offset c (encodeChunks post)
        hcwf hoff hdrop
      rw [pngWalkF, hbe, hty, if_pos (by omega), if_pos (by omega),
        if_pos ⟨hcty, hclen⟩]
      simp [encodeChunks]
  | cons p rest ihr =>
    intro c post fuel offset ih data hwf hcwf hnp hcty hclen hoff hdrop hfuel
    cases fuel with
    | zero => simp at hfuel
    | succ m =>
      rw [List.cons_append, encodeChunks_cons] at hdrop
      obtain ⟨hbe, hty, hlen, hdrop2⟩ := pngWalkF_step data offset p
        (encodeChunks (rest ++ c :: post)) (hwf p (List.mem_cons_self p rest)) hoff hdrop
      rw [pngWalkF, hbe, hty, if_pos (by omega), if_pos (by omega),
        if_neg (hnp p (List.mem_cons_self p rest)),
        ihr c post m (offset + (12 + p.cdata.length)) _ data
          (fun x hx => hwf x (List.mem_cons_of_mem p hx)) hcwf
          (fun x hx => hnp x (List.mem_cons_of_mem p hx)) hcty hclen
          (by omega) hdrop2 (by simp at hfuel; omega)]
      rw [encodeChunks_cons]
      congr 1
      rw [List.length_append, encodeChunk_length p (hwf p (List.mem_cons_self p rest))]
      omega

theorem injectPNGpHYs_done_some (data : List Nat) (dpi e : Nat)
    (h33 : ¬ data.length < 33)
    (hw : pngWalkF data.length data 8 none = .done (some e)) (hle : ¬ e > data.length) :
    injectPNGpHYs data dpi =
      data.take e ++ physChunkBytes (ppmOfDpi dpi) ++ data.drop e := by
  rw [injectPNGpHYs, if_neg h33, hw]
  show (if e > data.length then data
    else data.take e ++ physChunkBytes (ppmOfDpi dpi) ++ data.drop e) =
    data.take e ++ physChunkBytes (ppmOfDpi dpi) ++ data.drop e
  rw [if_neg hle]

theorem injectPNGpHYs_phys_case (data : List Nat) (dpi off : Nat)
    (h33 : ¬ data.length < 33)
    (hw : pngWalkF data.length data 8 none = .phys off) :
    injectPNGpHYs data dpi =
      bePutU32
        ((bePutU32 (bePutU32 data (off + 8) (ppmOfDpi dpi)) (off + 12)
            (ppmOfDpi dpi)).set (off + 16) 1)
        (off + 17)
        (crc32PNG (slice
          ((bePutU32 (bePutU32 data (off + 8) (ppmOfDpi dpi)) (off + 12)
              (ppmOfDpi dpi)).set (off + 16) 1)
          (off + 4) 13)) := by
  rw [injectPNGpHYs, if_neg h33, hw]

/-- Inserting a fresh pHYs chunk: on a well-formed PNG whose chunks are
IHDR first and contain no pHYs chunk, `injectPNGpHYs` returns the same
stream with the 21-byte pHYs chunk spliced in immediately after the
IHDR chunk. -/
theorem injectPNGpHYs_insert_eq (ihdrC : Chunk) (rest : List Chunk) (dpi : Nat)
    (hwf0 : ihdrC.wf) (hty : ihdrC.ctype = ihdrType) (h13 : ihdrC.cdata.length = 13)
    (hwfr : ∀ c ∈ rest, c.wf) (hni : ∀ c ∈ rest, c.ctype ≠ ihdrType)
    (hnp : ∀ c ∈ ihdrC :: rest, c.ctype ≠ physTag) :
    injectPNGpHYs (pngSig ++ encodeChunks (ihdrC :: rest)) dpi =
      pngSig ++ encodeChunk ihdrC ++ physChunkBytes (ppmOfDpi dpi) ++
        encodeChunks rest := by
  have hwfall : ∀ c ∈ ihdrC :: rest, c.wf := by
    intro c hc
    rcases List.mem_cons.mp hc with h | h
    · subst h; exact hwf0
    · exact hwfr c h
  have hclen : (encodeChunk ihdrC).length = 12 + ihdrC.cdata.length :=
    encodeChunk_length ihdrC hwf0
  have hge := length_encodeChunks_ge (ihdrC :: rest) hwfall
  have hlen2 : (pngSig ++ encodeChunks (ihdrC :: rest)).length =
      8 + (encodeChunks (ihdrC :: rest)).length := by
    simp [pngSig]
    omega
  have hlen3 : (encodeChunks (ihdrC :: rest)).length =
      (12 + ihdrC.cdata.length) + (encodeChunks rest).length := by
    rw [encodeChunks_cons, List.length_append, hclen]
  have hdrop8 : (pngSig ++ encodeChunks (ihdrC :: rest)).drop 8 =
      encodeChunks (ihdrC :: rest) := List.drop_left' rfl
  have hwalk := pngWalkF_no_phys (ihdrC :: rest)
    (pngSig ++ encodeChunks (ihdrC :: rest)).length 8 none
    (pngSig ++ encodeChunks (ihdrC :: rest)) hwfall
    (fun c hc hcon => hnp c hc hcon.1) (by omega) hdrop8
    (by simp at hge hlen2 ⊢; omega)
  have hwalkIh : walkIhdr (ihdrC :: rest) 8 none =
      some (8 + (12 + ihdrC.cdata.length)) := by
    rw [walkIhdr, if_pos hty, walkIhdr_no_ihdr rest _ _ hni]
  rw [hwalkIh] at hwalk
  have hsplit : pngSig ++ encodeChunks (ihdrC :: rest) =
      (pngSig ++ encodeChunk ihdrC) ++ encodeChunks rest := by
    rw [encodeChunks_cons, List.append_assoc]
  have hplen : (pngSig ++ encodeChunk ihdrC).length = 8 + (12 + ihdrC.cdata.length) := by
    simp [pngSig, hclen]
    omega
  have htake : (pngSig ++ encodeChunks (ihdrC :: rest)).take
      (8 + (12 + ihdrC.cdata.length)) = pngSig ++ encodeChunk ihdrC := by
    rw [hsplit]; exact List.take_left' hplen
  have hdropE : (pngSig ++ encodeChunks (ihdrC :: rest)).drop
      (8 + (12 + ihdrC.cdata.length)) = encodeChunks rest := by
    rw [hsplit]; exact List.drop_left' hplen
  rw [injectPNGpHYs_done_some _ dpi _ (by omega) hwalk (by omega), htake, hdropE,
    List.append_assoc]

/-- Re-applying the patch to a stream that already carries the freshly
inserted pHYs chunk overwrites every field with the value it already
has and is therefore the identity. -/
theorem injectPNGpHYs_idem_eq (ihdrC : Chunk) (rest : List Chunk) (dpi : Nat)
    (hwf0 : ihdrC.wf) (hty : ihdrC.ctype = ihdrType) :
    injectPNGpHYs (pngSig ++ encodeChunk ihdrC ++ physChunkBytes (ppmOfDpi dpi) ++
        encodeChunks rest) dpi =
      pngSig ++ encodeChunk ihdrC ++ physChunkBytes (ppmOfDpi dpi) ++
        encodeChunks rest := by
  have hclen : (encodeChunk ihdrC).length = 12 + ihdrC.cdata.length :=
    encodeChunk_length ihdrC hwf0
  have hencC : encodeChunk
        ⟨physTag, be32Bytes (ppmOfDpi dpi) ++ be32Bytes (ppmOfDpi dpi) ++ [1],
          be32Bytes (crc32PNG (physTag ++ be32Bytes (ppmOfDpi dpi) ++
            be32Bytes (ppmOfDpi dpi) ++ [1]))⟩ =
      physChunkBytes (ppmOfDpi dpi) := by
    simp [encodeChunk, physChunkBytes, be32Bytes, physTag]
  have hR : pngSig ++ encodeChunk ihdrC ++ physChunkBytes (ppmOfDpi dpi) ++
      encodeChunks rest =
      (pngSig ++ encodeChunk ihdrC) ++
        (physChunkBytes (ppmOfDpi dpi) ++ encodeChunks rest) := by
    simp [List.append_assoc]
  have hR2 : pngSig ++ encodeChunk ihdrC ++ physChunkBytes (ppmOfDpi dpi) ++
      encodeChunks rest =
      pngSig ++ (encodeChunk ihdrC ++
        (physChunkBytes (ppmOfDpi dpi) ++ encodeChunks rest)) := by
    simp [List.append_assoc]
  have hphyslen : (physChunkBytes (ppmOfDpi dpi)).length = 21 := by
    simp [physChunkBytes, be32Bytes, physTag]
  have hRlen : (pngSig ++ encodeChunk ihdrC ++ physChunkBytes (ppmOfDpi dpi) ++
      encodeChunks rest).length =
      8 + (12 + ihdrC.cdata.length) + 21 + (encodeChunks rest).length := by
    simp [pngSig, hclen, hphyslen]
    omega
  have hdrop8 : (pngSig ++ encodeChunk ihdrC ++ physChunkBytes (ppmOfDpi dpi) ++
      encodeChunks rest).drop 8 =
      encodeChunks ([ihdrC] ++
        ⟨physTag, be32Bytes (ppmOfDpi dpi) ++ be32Bytes (ppmOfDpi dpi) ++ [1],
          be32Bytes (crc32PNG (physTag ++ be32Bytes (ppmOfDpi dpi) ++
            be32Bytes (ppmOfDpi dpi) ++ [1]))⟩ :: rest) := by
    rw [hR2]
    have hd : List.drop 8 (pngSig ++ (encodeChunk ihdrC ++
        (physChunkBytes (ppmOfDpi dpi) ++ encodeChunks rest))) =
        encodeChunk ihdrC ++ (physChunkBytes (ppmOfDpi dpi) ++ encodeChunks rest) :=
      List.drop_left' rfl
    rw [hd]
    simp only [List.cons_append, List.nil_append, encodeChunks_cons, hencC]
  have hwalk := pngWalkF_finds_phys [ihdrC] _ rest
    (pngSig ++ encodeChunk ihdrC ++ physChunkBytes (ppmOfDpi dpi) ++
      encodeChunks rest).length 8 none
    (pngSig ++ encodeChunk ihdrC ++ physChunkBytes (ppmOfDpi dpi) ++
      encodeChunks rest)
    (by intro p hp; rw [List.mem_singleton] at hp; subst hp; exact hwf0)
    (by exact ⟨rfl, rfl, by simp [be32Bytes]⟩)
    (by
      intro p hp hcon
      rw [List.mem_singleton] at hp
      subst hp
      rw [hty] at hcon
      exact absurd hcon.1 (by decide))
    rfl (by simp [be32Bytes]) (by omega) hdrop8
    (by simp only [List.length_cons, List.length_nil]; omega)
  have hoffeq : 8 + (encodeChunks [ihdrC]).length = (pngSig ++ encodeChunk ihdrC).length := by
    simp [encodeChunks, pngSig]
    omega
  rw [hoffeq] at hwalk
  have hs8 : slice (pngSig ++ encodeChunk ihdrC ++ physChunkBytes (ppmOfDpi dpi) ++
      encodeChunks rest) ((pngSig ++ encodeChunk ihdrC).length + 8) 4 =
      be32Bytes (ppmOfDpi dpi) := by
    rw [hR, slice_append_right]
    simp [physChunkBytes, be32Bytes, physTag, slice]
  have hs12 : slice (pngSig ++ encodeChunk ihdrC ++ physChunkBytes (ppmOfDpi dpi) ++
      encodeChunks rest) ((pngSig ++ encodeChunk ihdrC).length + 12) 4 =
      be32Bytes (ppmOfDpi dpi) := by
    rw [hR, slice_append_right]
    simp [physChunkBytes, be32Bytes, physTag, slice]
  have hs16 : (pngSig ++ encodeChunk ihdrC ++ physChunkBytes (ppmOfDpi dpi) ++
      encodeChunks rest)[(pngSig ++ encodeChunk ihdrC).length + 16]? = some 1 := by
    have := getElem?_of_slice (pngSig ++ encodeChunk ihdrC ++
        physChunkBytes (ppmOfDpi dpi) ++ encodeChunks rest)
      ((pngSig ++ encodeChunk ihdrC).length + 16) 1 0 [1] ?_ (by omega)
    · simpa using this
    · rw [hR, slice_append_right]
      simp [physChunkBytes, be32Bytes, physTag, slice]
  have hs4 : slice (pngSig ++ encodeChunk ihdrC ++ physChunkBytes (ppmOfDpi dpi) ++
      encodeChunks rest) ((pngSig ++ encodeChunk ihdrC).length + 4) 13 =
      physTag ++ be32Bytes (ppmOfDpi dpi) ++ be32Bytes (ppmOfDpi dpi) ++ [1] := by
    rw [hR, slice_append_right]
    simp [physChunkBytes, be32Bytes, physTag, slice]
  have hs17 : slice (pngSig ++ encodeChunk ihdrC ++ physChunkBytes (ppmOfDpi dpi) ++
      encodeChunks rest) ((pngSig ++ encodeChunk ihdrC).length + 17) 4 =
      be32Bytes (crc32PNG (physTag ++ be32Bytes (ppmOfDpi dpi) ++
        be32Bytes (ppmOfDpi dpi) ++ [1])) := by
    rw [hR, slice_append_right]
    simp [physChunkBytes, be32Bytes, physTag, slice]
  rw [injectPNGpHYs_phys_case _ dpi _ (by omega) hwalk]
  rw [bePutU32_self _ _ _ hs8, bePutU32_self _ _ _ hs12,
    set_of_getElem_eq _ _ _ hs16, hs4, bePutU32_self _ _ _ hs17]

theorem readBE32_of_slice (l : List Nat) (off v : Nat)
    (hs : slice l off 4 = be32Bytes v) (hv : v < 4294967296) : readBE32 l off = v := by
  have h0 : l[off]? = some (v / 16777216 % 256) := by
    have := getElem?_of_slice l off 4 0 _ hs (by omega)
    simpa [be32Bytes] using this
  have h1 : l[off + 1]? = some (v / 65536 % 256) := by
    have := getElem?_of_slice l off 4 1 _ hs (by omega)
    simpa [be32Bytes] using this
  have h2 : l[off + 2]? = some (v / 256 % 256) := by
    have := getElem?_of_slice l off 4 2 _ hs (by omega)
    simpa [be32Bytes] using this
  have h3 : l[off + 3]? = some (v % 256) := by
    have := getElem?_of_slice l off 4 3 _ hs (by omega)
    simpa [be32Bytes] using this
  simp [readBE32, List.getD, h0, h1, h2, h3]
  omega

/-! ## Claim C6 — PNG pHYs insertion and idempotence -/

/-- C6: on a well-formed PNG (signature, IHDR first with its 13 data
bytes, no pHYs chunk anywhere, no second IHDR), one application of
`injectPNGpHYs` splices exactly one 21-byte pHYs chunk immediately
after the IHDR chunk; the chunk's type field is `pHYs` and its trailing
4 bytes are the CRC-32 (computed with the reflected ISO-HDLC polynomial
`0xEDB88320` table) of its type+data bytes; and a second application
with the same DPI is the identity on the result. -/
theorem injectPNGpHYs_insert_idem (ihdrC : Chunk) (rest : List Chunk) (dpi : Nat)
    (hwf0 : ihdrC.wf) (hty : ihdrC.ctype = ihdrType) (h13 : ihdrC.cdata.length = 13)
    (hwfr : ∀ c ∈ rest, c.wf) (hni : ∀ c ∈ rest, c.ctype ≠ ihdrType)
    (hnp : ∀ c ∈ ihdrC :: rest, c.ctype ≠ physTag) :
    injectPNGpHYs (pngSig ++ encodeChunks (ihdrC :: rest)) dpi =
      pngSig ++ encodeChunk ihdrC ++ physChunkBytes (ppmOfDpi dpi) ++
        encodeChunks rest ∧
    (physChunkBytes (ppmOfDpi dpi)).length = 21 ∧
    slice (physChunkBytes (ppmOfDpi dpi)) 4 4 = physTag ∧
    slice (physChunkBytes (ppmOfDpi dpi)) 17 4 =
      be32Bytes (crc32PNG (slice (physChunkBytes (ppmOfDpi dpi)) 4 13)) ∧
    injectPNGpHYs (injectPNGpHYs (pngSig ++ encodeChunks (ihdrC :: rest)) dpi) dpi =
      injectPNGpHYs (pngSig ++ encodeChunks (ihdrC :: rest)) dpi := by
  have hins := injectPNGpHYs_insert_eq ihdrC rest dpi hwf0 hty h13 hwfr hni hnp
  refine ⟨hins, by simp [physChunkBytes, be32Bytes, physTag], ?_, ?_, ?_⟩
  · simp [physChunkBytes, be32Bytes, physTag, slice]
  · simp [physChunkBytes, be32Bytes, physTag, slice]
  · rw [hins, injectPNGpHYs_idem_eq ihdrC rest dpi hwf0 hty]

/-- C6 witness: a minimal one-chunk PNG (IHDR with 13 zero data bytes),
patched at DPI 96: the insertion equation and the idempotence both
hold. -/
theorem injectPNGpHYs_insert_idem_witness :
    injectPNGpHYs
        (pngSig ++ encodeChunks [⟨ihdrType, List.replicate 13 0, [0, 0, 0, 0]⟩]) 96 =
      pngSig ++ encodeChunk ⟨ihdrType, List.replicate 13 0, [0, 0, 0, 0]⟩ ++
        physChunkBytes (ppmOfDpi 96) ++ encodeChunks [] ∧
    injectPNGpHYs (injectPNGpHYs
        (pngSig ++ encodeChunks [⟨ihdrType, List.replicate 13 0, [0, 0, 0, 0]⟩]) 96) 96 =
      injectPNGpHYs
        (pngSig ++ encodeChunks [⟨ihdrType, List.replicate 13 0, [0, 0, 0, 0]⟩]) 96 :=
  ⟨(injectPNGpHYs_insert_idem ⟨ihdrType, List.replicate 13 0, [0, 0, 0, 0]⟩ [] 96
      (by exact ⟨rfl, rfl, by simp⟩) rfl (by decide) (by intro c hc; cases hc)
      (by intro c hc; cases hc) (by decide)).1,
   (injectPNGpHYs_insert_idem ⟨ihdrType, List.replicate 13 0, [0, 0, 0, 0]⟩ [] 96
      (by exact ⟨rfl, rfl, by simp⟩) rfl (by decide) (by intro c hc; cases hc)
      (by intro c hc; cases hc) (by decide)).2.2.2.2⟩

/-! ## Claim C1 — pixels-per-metre value (corrected)

Go computes `ppm := uint32(float64(dpi) / 0.0254)`, which truncates:
for dpi 96 the exact quotient is 3779.527…, so the written value is
3779, not the rounded 3780 the claim states. -/

/-- C1 counterexample: patching a minimal 33-byte PNG without a pHYs
chunk at DPI 96 writes X pixels-per-unit 3779, not round(96/0.0254) =
3780. -/
theorem injectPNGpHYs_ppm_truncates_cex :
    readBE32 (injectPNGpHYs (pngSig ++
        [0, 0, 0, 13, 73, 72, 68, 82, 0, 0, 0, 0, 0, 0, 0, 0, 0, 0, 0, 0, 0,
          0, 0, 0, 0]) 96) 41 = 3779 ∧
    (3779 : Nat) ≠ 3780 := by decide

/-- C1 amended: the pHYs chunk written by the PNG patcher carries X and
Y pixels-per-unit both equal to the *truncated* quotient
`dpi * 10000 / 254` (Go `uint32(float64(dpi)/0.0254)`), with unit byte
1 (metre); for dpi = 96 the written pixels-per-metre value is 3779. -/
theorem injectPNGpHYs_ppm_value (ihdrC : Chunk) (rest : List Chunk) (dpi : Nat)
    (hwf0 : ihdrC.wf) (hty : ihdrC.ctype = ihdrType) (h13 : ihdrC.cdata.length = 13)
    (hwfr : ∀ c ∈ rest, c.wf) (hni : ∀ c ∈ rest, c.ctype ≠ ihdrType)
    (hnp : ∀ c ∈ ihdrC :: rest, c.ctype ≠ physTag)
    (hppm : ppmOfDpi dpi < 4294967296) :
    readBE32 (injectPNGpHYs (pngSig ++ encodeChunks (ihdrC :: rest)) dpi) 41 =
      ppmOfDpi dpi ∧
    readBE32 (injectPNGpHYs (pngSig ++ encodeChunks (ihdrC :: rest)) dpi) 45 =
      ppmOfDpi dpi ∧
    (injectPNGpHYs (pngSig ++ encodeChunks (ihdrC :: rest)) dpi).getD 49 0 = 1 ∧
    ppmOfDpi dpi = dpi * 10000 / 254 ∧
    ppmOfDpi 96 = 3779 := by
  have hins := injectPNGpHYs_insert_eq ihdrC rest dpi hwf0 hty h13 hwfr hni hnp
  have hplen : (pngSig ++ encodeChunk ihdrC).length = 33 := by
    simp [pngSig, encodeChunk_length ihdrC hwf0, h13]
  have hR : pngSig ++ encodeChunk ihdrC ++ physChunkBytes (ppmOfDpi dpi) ++
      encodeChunks rest =
      (pngSig ++ encodeChunk ihdrC) ++
        (physChunkBytes (ppmOfDpi dpi) ++ encodeChunks rest) := by
    simp [List.append_assoc]
  have hs8 : slice (injectPNGpHYs (pngSig ++ encodeChunks (ihdrC :: rest)) dpi) 41 4 =
      be32Bytes (ppmOfDpi dpi) := by
    rw [hins, hR, show (41 : Nat) = (pngSig ++ encodeChunk ihdrC).length + 8 by omega,
      slice_append_right]
    simp [physChunkBytes, be32Bytes, physTag, slice]
  have hs12 : slice (injectPNGpHYs (pngSig ++ encodeChunks (ihdrC :: rest)) dpi) 45 4 =
      be32Bytes (ppmOfDpi dpi) := by
    rw [hins, hR, show (45 : Nat) = (pngSig ++ encodeChunk ihdrC).length + 12 by omega,
      slice_append_right]
    simp [physChunkBytes, be32Bytes, physTag, slice]
  have hs16 : slice (injectPNGpHYs (pngSig ++ encodeChunks (ihdrC :: rest)) dpi) 49 1 =
      [1] := by
    rw [hins, hR, show (49 : Nat) = (pngSig ++ encodeChunk ihdrC).length + 16 by omega,
      slice_append_right]
    simp [physChunkBytes, be32Bytes, physTag, slice]
  refine ⟨readBE32_of_slice _ _ _ hs8 hppm, readBE32_of_slice _ _ _ hs12 hppm, ?_, rfl,
    by decide⟩
  have h49 : (injectPNGpHYs (pngSig ++ encodeChunks (ihdrC :: rest)) dpi)[49]? =
      some 1 := by
    have := getElem?_of_slice _ 49 1 0 _ hs16 (by omega)
    simpa using this
  simp [List.getD, h49]

/-- C1 amended witness: at the minimal one-chunk PNG and dpi 96, the
written X pixels-per-unit equals `ppmOfDpi 96`, which is 3779. -/
theorem injectPNGpHYs_ppm_value_witness :
    readBE32 (injectPNGpHYs
        (pngSig ++ encodeChunks [⟨ihdrType, List.replicate 13 0, [0, 0, 0, 0]⟩]) 96) 41 =
      ppmOfDpi 96 ∧
    ppmOfDpi 96 = 3779 :=
  ⟨(injectPNGpHYs_ppm_value ⟨ihdrType, List.replicate 13 0, [0, 0, 0, 0]⟩ [] 96
      (by exact ⟨rfl, rfl, by simp⟩) rfl (by decide) (by intro c hc; cases hc)
      (by intro c hc; cases hc) (by decide) (by decide)).1,
   (injectPNGpHYs_ppm_value ⟨ihdrType, List.replicate 13 0, [0, 0, 0, 0]⟩ [] 96
      (by exact ⟨rfl, rfl, by simp⟩) rfl (by decide) (by intro c hc; cases hc)
      (by intro c hc; cases hc) (by decide) (by decide)).2.2.2.2⟩

end Athanor
